import Mathlib

/-!
Verification development for the polymarket copy-trading bot's deterministic
simulation-and-validation pipeline.

The definitions below are a shallow embedding of the TypeScript sources:
  MockWalletEngine   (src/simulators/MockWalletEngine.ts)
  PriceSimulator     (src/simulators/PriceSimulator.ts)
  RiskEngine         (src/services/risk/RiskEngine.ts)
  PositionManager    (src/services/position/PositionManager.ts)
  MockExecutor       (src/simulators/MockExecutor.ts)
  ExecutorService    (src/services/executor/ExecutorService.ts)
  InMemoryDatabaseManager (src/database/InMemoryDatabaseManager.ts)

Numbers are modelled as rationals (the source uses JS doubles; all the
formulas under verification are field arithmetic).  JS Map objects keyed by
the string template "marketId:outcomeId" are modelled as association lists
keyed by the pair (marketId, outcomeId).  Wall-clock fields (lastUpdated,
timestamp, executionTimestamp) and log calls carry no logic and are omitted.
Strings built for human-readable rejection reasons are abstracted into an
inductive tag carrying which check produced the reason.
-/

/-- Order side, from src/types/index.ts enum OrderSide. -/
inductive OrderSide where
  | BUY
  | SELL
deriving DecidableEq, Repr

/-- Order status, from src/types/index.ts enum OrderStatus. -/
inductive OrderStatus where
  | PENDING
  | EXECUTED
  | FAILED
  | REJECTED
deriving DecidableEq, Repr

/-- Tag identifying which check produced a rejection / failure reason string
in the source (RiskEngine.validateOrder, MockExecutor.canExecute,
MockExecutor.executeOrder, PositionManager.updatePosition). -/
inductive RejectReason where
  | belowMinimumSize
  | positionSizeLimitExceeded
  | totalExposureLimitExceeded
  | slippageExceeded
  | insufficientBalance
  | insufficientPosition
  | sellNoPosition
  | sellInsufficientQuantity
deriving DecidableEq, Repr

/-- Position record, from src/types/index.ts interface Position.
The redundant string id ("marketId:outcomeId") and the lastUpdated wall
clock are omitted; the record is stored under its (marketId, outcomeId) key. -/
structure Position where
  marketId : String
  outcomeId : String
  quantity : ℚ
  averagePrice : ℚ
  currentPrice : ℚ
  unrealizedPnL : ℚ
  realizedPnL : ℚ
deriving DecidableEq, Repr

/-- Association-list lookup, modelling JS Map.get. -/
def lookupKey {α : Type} {κ : Type} [DecidableEq κ] :
    List (κ × α) → κ → Option α
  | [], _ => none
  | (k', v) :: rest, k => if k' = k then some v else lookupKey rest k

/-- Association-list store, modelling JS Map.set: replaces the first binding
of the key when present, otherwise appends a new binding. -/
def insertKey {α : Type} {κ : Type} [DecidableEq κ]
    (l : List (κ × α)) (k : κ) (v : α) : List (κ × α) :=
  match l with
  | [] => [(k, v)]
  | (k', v') :: rest =>
      if k' = k then (k, v) :: rest else (k', v') :: insertKey rest k v

/-- Association-list removal, modelling JS Map.delete. -/
def eraseKey {α : Type} {κ : Type} [DecidableEq κ]
    (l : List (κ × α)) (k : κ) : List (κ × α) :=
  match l with
  | [] => []
  | (k', v') :: rest =>
      if k' = k then rest else (k', v') :: eraseKey rest k

/-- State of MockWalletEngine: cash balance plus the positions map
(src/simulators/MockWalletEngine.ts).  The trade-history array feeds only
statistics and is omitted. -/
structure WalletState where
  cashBalance : ℚ
  positions : List ((String × String) × Position)
deriving DecidableEq, Repr

/-- MockWalletEngine.buy (MockWalletEngine.ts lines 38-88): fails when
cost exceeds cash; otherwise debits cash and merges into the position
using the weighted-average entry price. -/
def MockWalletEngine.buy (s : WalletState) (marketId outcomeId : String)
    (quantity price : ℚ) : Bool × WalletState :=
  let cost := quantity * price
  if cost > s.cashBalance then
    (false, s)
  else
    let cash := s.cashBalance - cost
    let key := (marketId, outcomeId)
    match lookupKey s.positions key with
    | some p =>
        let totalQuantity := p.quantity + quantity
        let totalCost := p.quantity * p.averagePrice + cost
        let p' := { p with
          quantity := totalQuantity
          averagePrice := totalCost / totalQuantity
          currentPrice := price }
        (true, ⟨cash, insertKey s.positions key p'⟩)
    | none =>
        let p' : Position :=
          ⟨marketId, outcomeId, quantity, price, price, 0, 0⟩
        (true, ⟨cash, insertKey s.positions key p'⟩)

/-- MockWalletEngine.sell (MockWalletEngine.ts lines 93-133): fails when no
position exists or its quantity is below the requested quantity; otherwise
credits cash, accrues realized PnL, decrements quantity, and deletes the
record when the remaining quantity is exactly zero. -/
def MockWalletEngine.sell (s : WalletState) (marketId outcomeId : String)
    (quantity price : ℚ) : Bool × WalletState :=
  let key := (marketId, outcomeId)
  match lookupKey s.positions key with
  | none => (false, s)
  | some p =>
      if p.quantity < quantity then
        (false, s)
      else
        let proceeds := quantity * price
        let realizedPnL := (price - p.averagePrice) * quantity
        let cash := s.cashBalance + proceeds
        let p' := { p with
          quantity := p.quantity - quantity
          realizedPnL := p.realizedPnL + realizedPnL
          currentPrice := price }
        if p'.quantity = 0 then
          (true, ⟨cash, eraseKey s.positions key⟩)
        else
          (true, ⟨cash, insertKey s.positions key p'⟩)

/-- One call against the wallet ledger. -/
inductive WalletOp where
  | buy (marketId outcomeId : String) (quantity price : ℚ)
  | sell (marketId outcomeId : String) (quantity price : ℚ)
deriving DecidableEq, Repr

/-- Apply one wallet operation, keeping only the resulting state. -/
def WalletState.apply (s : WalletState) : WalletOp → WalletState
  | .buy m o q p => (MockWalletEngine.buy s m o q p).2
  | .sell m o q p => (MockWalletEngine.sell s m o q p).2

/-- Apply a sequence of wallet operations in order. -/
def WalletState.applyAll (s : WalletState) (ops : List WalletOp) : WalletState :=
  ops.foldl WalletState.apply s

/-- Validity of an operation's arguments: quantity and price are
non-negative, as they are for every trade of the data model. -/
def WalletOp.Valid : WalletOp → Prop
  | .buy _ _ q p => 0 ≤ q ∧ 0 ≤ p
  | .sell _ _ q p => 0 ≤ q ∧ 0 ≤ p

instance : DecidablePred WalletOp.Valid := by
  intro op
  cases op <;> simp only [WalletOp.Valid] <;> infer_instance

/-- Ledger invariant: cash is non-negative and every stored position has a
non-negative quantity. -/
def WalletInv (s : WalletState) : Prop :=
  0 ≤ s.cashBalance ∧ ∀ kp ∈ s.positions, 0 ≤ kp.2.quantity

instance : DecidablePred WalletInv := by
  intro s
  unfold WalletInv
  infer_instance

/-- Keys of an association list. -/
def keysOf {α : Type} {κ : Type} (l : List (κ × α)) : List κ :=
  l.map Prod.fst

theorem mem_insertKey {α κ : Type} [DecidableEq κ] {l : List (κ × α)}
    {k : κ} {v : α} {kp : κ × α} (h : kp ∈ insertKey l k v) :
    kp = (k, v) ∨ kp ∈ l := by
  induction l with
  | nil =>
    simp only [insertKey, List.mem_singleton] at h
    exact Or.inl h
  | cons hd tl ih =>
    rcases hd with ⟨k', v'⟩
    simp only [insertKey] at h
    split at h
    · rcases List.mem_cons.mp h with h1 | h1
      · exact Or.inl h1
      · exact Or.inr (List.mem_cons_of_mem _ h1)
    · rcases List.mem_cons.mp h with h1 | h1
      · exact Or.inr (h1 ▸ List.mem_cons_self _ _)
      · rcases ih h1 with h2 | h2
        · exact Or.inl h2
        · exact Or.inr (List.mem_cons_of_mem _ h2)

theorem mem_eraseKey {α κ : Type} [DecidableEq κ] {l : List (κ × α)}
    {k : κ} {kp : κ × α} (h : kp ∈ eraseKey l k) : kp ∈ l := by
  induction l with
  | nil => simp [eraseKey] at h
  | cons hd tl ih =>
    rcases hd with ⟨k', v'⟩
    simp only [eraseKey] at h
    split at h
    · exact List.mem_cons_of_mem _ h
    · rcases List.mem_cons.mp h with h1 | h1
      · exact h1 ▸ List.mem_cons_self _ _
      · exact List.mem_cons_of_mem _ (ih h1)

theorem lookupKey_mem {α κ : Type} [DecidableEq κ] {l : List (κ × α)}
    {k : κ} {v : α} (h : lookupKey l k = some v) : (k, v) ∈ l := by
  induction l with
  | nil => simp [lookupKey] at h
  | cons hd tl ih =>
    rcases hd with ⟨k', v'⟩
    simp only [lookupKey] at h
    split at h
    · rename_i he
      rw [he]
      simp only [Option.some.injEq] at h
      rw [h]
      exact List.mem_cons_self _ _
    · exact List.mem_cons_of_mem _ (ih h)

theorem lookupKey_insertKey_self {α κ : Type} [DecidableEq κ]
    (l : List (κ × α)) (k : κ) (v : α) :
    lookupKey (insertKey l k v) k = some v := by
  induction l with
  | nil => simp [insertKey, lookupKey]
  | cons hd tl ih =>
    rcases hd with ⟨k', v'⟩
    simp only [insertKey]
    split
    · simp [lookupKey]
    · rename_i hne
      simp [lookupKey, hne, ih]

theorem lookupKey_insertKey_ne {α κ : Type} [DecidableEq κ]
    (l : List (κ × α)) (k k' : κ) (v : α) (hne : k ≠ k') :
    lookupKey (insertKey l k v) k' = lookupKey l k' := by
  induction l with
  | nil => simp [insertKey, lookupKey, hne]
  | cons hd tl ih =>
    rcases hd with ⟨k0, v0⟩
    simp only [insertKey]
    split
    · rename_i he
      subst he
      simp [lookupKey, hne]
    · simp only [lookupKey, ih]

theorem lookupKey_eraseKey_self {α κ : Type} [DecidableEq κ]
    {l : List (κ × α)} {k : κ} (hnd : (keysOf l).Nodup) :
    lookupKey (eraseKey l k) k = none := by
  induction l with
  | nil => simp [eraseKey, lookupKey]
  | cons hd tl ih =>
    rcases hd with ⟨k', v'⟩
    simp only [keysOf, List.map_cons, List.nodup_cons] at hnd
    simp only [eraseKey]
    split
    · rename_i he
      subst he
      cases hl : lookupKey tl k' with
      | none => rfl
      | some w =>
        exact absurd (List.mem_map_of_mem Prod.fst (lookupKey_mem hl)) hnd.1
    · rename_i hne
      simp only [lookupKey, hne, if_false]
      exact ih hnd.2

theorem lookupKey_eraseKey_ne {α κ : Type} [DecidableEq κ]
    (l : List (κ × α)) (k k' : κ) (hne : k ≠ k') :
    lookupKey (eraseKey l k) k' = lookupKey l k' := by
  induction l with
  | nil => simp [eraseKey]
  | cons hd tl ih =>
    rcases hd with ⟨k0, v0⟩
    simp only [eraseKey]
    split
    · rename_i he
      subst he
      simp [lookupKey, hne]
    · simp only [lookupKey, ih]

theorem buy_preserves_WalletInv (s : WalletState) (m o : String) (q p : ℚ)
    (hq : 0 ≤ q) (h : WalletInv s) :
    WalletInv (MockWalletEngine.buy s m o q p).2 := by
  obtain ⟨hcash, hpos⟩ := h
  by_cases hc : q * p > s.cashBalance
  · simp only [MockWalletEngine.buy, hc, if_true]
    exact ⟨hcash, hpos⟩
  · have hle : q * p ≤ s.cashBalance := not_lt.mp hc
    cases hlp : lookupKey s.positions (m, o) with
    | some pos =>
      simp only [MockWalletEngine.buy, hc, if_false, hlp]
      refine ⟨show (0:ℚ) ≤ s.cashBalance - q * p by linarith, ?_⟩
      intro kp hkp
      rcases mem_insertKey hkp with heq | hmem
      · have h0 : 0 ≤ pos.quantity := hpos _ (lookupKey_mem hlp)
        rw [heq]
        simpa using by linarith
      · exact hpos _ hmem
    | none =>
      simp only [MockWalletEngine.buy, hc, if_false, hlp]
      refine ⟨show (0:ℚ) ≤ s.cashBalance - q * p by linarith, ?_⟩
      intro kp hkp
      rcases mem_insertKey hkp with heq | hmem
      · rw [heq]
        simpa using hq
      · exact hpos _ hmem

theorem sell_preserves_WalletInv (s : WalletState) (m o : String) (q p : ℚ)
    (hq : 0 ≤ q) (hp : 0 ≤ p) (h : WalletInv s) :
    WalletInv (MockWalletEngine.sell s m o q p).2 := by
  obtain ⟨hcash, hpos⟩ := h
  cases hlp : lookupKey s.positions (m, o) with
  | none =>
    simp only [MockWalletEngine.sell, hlp]
    exact ⟨hcash, hpos⟩
  | some pos =>
    by_cases hlt : pos.quantity < q
    · simp only [MockWalletEngine.sell, hlp, hlt, if_true]
      exact ⟨hcash, hpos⟩
    · have hge : q ≤ pos.quantity := not_lt.mp hlt
      have hproceeds : 0 ≤ q * p := mul_nonneg hq hp
      by_cases hzero : pos.quantity - q = 0
      · simp only [MockWalletEngine.sell, hlp, hlt, if_false, hzero, if_true]
        refine ⟨show (0:ℚ) ≤ s.cashBalance + q * p by linarith, ?_⟩
        intro kp hkp
        exact hpos _ (mem_eraseKey hkp)
      · simp only [MockWalletEngine.sell, hlp, hlt, if_false, hzero]
        refine ⟨show (0:ℚ) ≤ s.cashBalance + q * p by linarith, ?_⟩
        intro kp hkp
        rcases mem_insertKey hkp with heq | hmem
        · rw [heq]
          simpa using by linarith
        · exact hpos _ hmem

theorem apply_preserves_WalletInv (s : WalletState) (op : WalletOp)
    (hv : op.Valid) (h : WalletInv s) : WalletInv (s.apply op) := by
  cases op with
  | buy m o q p => exact buy_preserves_WalletInv s m o q p hv.1 h
  | sell m o q p => exact sell_preserves_WalletInv s m o q p hv.1 hv.2 h

theorem applyAll_preserves_WalletInv (ops : List WalletOp) (s : WalletState)
    (h : WalletInv s) (hv : ∀ op ∈ ops, op.Valid) :
    WalletInv (s.applyAll ops) := by
  induction ops generalizing s with
  | nil => exact h
  | cons op rest ih =>
    have h1 : WalletInv (s.apply op) :=
      apply_preserves_WalletInv s op (hv op (List.mem_cons_self _ _)) h
    exact ih (s.apply op) h1 (fun o ho => hv o (List.mem_cons_of_mem _ ho))

/-- C2: starting from a non-negative initial balance with no positions,
after each operation of any sequence of valid buy/sell operations (valid:
non-negative quantity and price, as for every trade of the data model) the
wallet ledger's cash balance is non-negative and every stored position
quantity is non-negative.  The conclusion covers the state after every
prefix of the sequence, hence after each operation. -/
theorem wallet_ledger_nonneg (init : ℚ) (ops : List WalletOp)
    (h0 : 0 ≤ init) (hv : ∀ op ∈ ops, op.Valid) :
    ∀ pre suf : List WalletOp, ops = pre ++ suf →
      WalletInv (WalletState.applyAll ⟨init, []⟩ pre) := by
  intro pre suf heq
  apply applyAll_preserves_WalletInv
  · exact ⟨h0, by intro kp hkp; simp at hkp⟩
  · intro op hop
    exact hv op (heq ▸ List.mem_append_left _ hop)

/-- Witness for C2 at a concrete run: buy 100 at 0.50 then sell 50 at 0.60
from an initial balance of 1000. -/
theorem wallet_ledger_nonneg_witness :
    WalletInv (WalletState.applyAll ⟨1000, []⟩
      [WalletOp.buy "m" "o" 100 (1/2), WalletOp.sell "m" "o" 50 (3/5)]) := by
  refine wallet_ledger_nonneg 1000 _ (by norm_num) ?_ _ [] (List.append_nil _).symm
  intro op hop
  simp only [List.mem_cons, List.not_mem_nil, or_false] at hop
  rcases hop with rfl | rfl
  · exact ⟨by norm_num, by norm_num⟩
  · exact ⟨by norm_num, by norm_num⟩

/-- PositionManager.updatePosition (PositionManager.ts lines 43-123), as a
function of the previously stored position (the database read) and the
side, quantity, and price of the executed order.  The two throw sites on
SELL are modelled as errors.  After either branch the source recomputes
unrealized PnL from the new record before saving it. -/
def PositionManager.updatePosition (existing : Option Position)
    (marketId outcomeId : String) (side : OrderSide)
    (quantity price : ℚ) : Except RejectReason Position :=
  match side with
  | .BUY =>
    match existing with
    | some p =>
        let totalQuantity := p.quantity + quantity
        let totalCost := p.quantity * p.averagePrice + quantity * price
        let newAveragePrice := totalCost / totalQuantity
        let newPosition := { p with
          quantity := totalQuantity
          averagePrice := newAveragePrice
          currentPrice := price }
        .ok { newPosition with
          unrealizedPnL :=
            (newPosition.currentPrice - newPosition.averagePrice)
              * newPosition.quantity }
    | none =>
        let newPosition : Position :=
          ⟨marketId, outcomeId, quantity, price, price, 0, 0⟩
        .ok { newPosition with
          unrealizedPnL :=
            (newPosition.currentPrice - newPosition.averagePrice)
              * newPosition.quantity }
  | .SELL =>
    match existing with
    | none => .error .sellNoPosition
    | some p =>
        if p.quantity < quantity then
          .error .sellInsufficientQuantity
        else
          let realizedPnL := (price - p.averagePrice) * quantity
          let remainingQuantity := p.quantity - quantity
          let newPosition := { p with
            quantity := remainingQuantity
            currentPrice := price
            realizedPnL := p.realizedPnL + realizedPnL }
          .ok { newPosition with
            unrealizedPnL :=
              (newPosition.currentPrice - newPosition.averagePrice)
                * newPosition.quantity }

/-- C5: with a stored position of quantity q and average price a, selling
qty with 0 < qty ≤ q at price p returns true, credits cash by qty*p, adds
(p - a)*qty to the realized PnL, decrements the quantity by qty, leaves the
average price unchanged, and removes the record exactly when the remaining
quantity is 0; selling more than q returns false and changes nothing. -/
theorem sell_functional_correctness (s : WalletState) (m o : String)
    (qty price : ℚ) (p : Position)
    (hnd : (keysOf s.positions).Nodup)
    (hlk : lookupKey s.positions (m, o) = some p)
    (hqpos : 0 < qty) (hle : qty ≤ p.quantity) :
    (MockWalletEngine.sell s m o qty price).1 = true ∧
    (MockWalletEngine.sell s m o qty price).2.cashBalance
      = s.cashBalance + qty * price ∧
    lookupKey (MockWalletEngine.sell s m o qty price).2.positions (m, o)
      = (if p.quantity - qty = 0 then none
         else some { p with
           quantity := p.quantity - qty
           currentPrice := price
           realizedPnL := p.realizedPnL + (price - p.averagePrice) * qty }) ∧
    (∀ qty2 : ℚ, p.quantity < qty2 →
      MockWalletEngine.sell s m o qty2 price = (false, s)) := by
  have hnlt : ¬ p.quantity < qty := not_lt.mpr hle
  refine ⟨?_, ?_, ?_, ?_⟩
  · by_cases hz : p.quantity - qty = 0 <;>
      simp [MockWalletEngine.sell, hlk, hnlt, hz]
  · by_cases hz : p.quantity - qty = 0 <;>
      simp [MockWalletEngine.sell, hlk, hnlt, hz]
  · by_cases hz : p.quantity - qty = 0
    · simp only [MockWalletEngine.sell, hlk, hnlt, if_false, hz, if_true]
      exact lookupKey_eraseKey_self hnd
    · simp only [MockWalletEngine.sell, hlk, hnlt, if_false, hz]
      exact lookupKey_insertKey_self _ _ _
  · intro qty2 h2
    simp [MockWalletEngine.sell, hlk, h2]

/-- Witness for C5 at the spec's scenario 2: from cash 950 and a position
of 100 at average 0.50, selling 50 at 0.60 yields cash 980. -/
theorem sell_functional_correctness_witness :
    (MockWalletEngine.sell
      ⟨950, [(("m", "o"), ⟨"m", "o", 100, 1/2, 1/2, 0, 0⟩)]⟩
      "m" "o" 50 (3/5)).2.cashBalance = 980 := by
  have h := sell_functional_correctness
    ⟨950, [(("m", "o"), ⟨"m", "o", 100, 1/2, 1/2, 0, 0⟩)]⟩
    "m" "o" 50 (3/5) ⟨"m", "o", 100, 1/2, 1/2, 0, 0⟩
    (by simp [keysOf]) (by simp [lookupKey]) (by norm_num) (by norm_num)
  rw [h.2.1]
  norm_num

/-- C4: merging a purchase of q2 at price p2 into an existing position of
q1 at average a1, MockWalletEngine.buy and PositionManager.updatePosition
(BUY side) both set the new average entry price to
(q1*a1 + q2*p2)/(q1 + q2), hence they agree on the same inputs. -/
theorem weighted_average_consistency (s : WalletState) (m o : String)
    (p : Position) (q1 a1 q2 p2 : ℚ)
    (hlk : lookupKey s.positions (m, o) = some p)
    (hq : p.quantity = q1) (ha : p.averagePrice = a1)
    (h1 : 0 < q1) (h2 : 0 < q2)
    (hcash : q2 * p2 ≤ s.cashBalance) :
    (∃ pw, lookupKey (MockWalletEngine.buy s m o q2 p2).2.positions (m, o)
        = some pw ∧ pw.averagePrice = (q1 * a1 + q2 * p2) / (q1 + q2)) ∧
    (∃ pm, PositionManager.updatePosition (some p) m o .BUY q2 p2 = .ok pm
        ∧ pm.averagePrice = (q1 * a1 + q2 * p2) / (q1 + q2)) := by
  have hnc : ¬ q2 * p2 > s.cashBalance := not_lt.mpr hcash
  constructor
  · have hl : lookupKey (MockWalletEngine.buy s m o q2 p2).2.positions (m, o)
        = some { p with
            quantity := p.quantity + q2
            averagePrice :=
              (p.quantity * p.averagePrice + q2 * p2) / (p.quantity + q2)
            currentPrice := p2 } := by
      simp only [MockWalletEngine.buy, hnc, if_false, hlk]
      exact lookupKey_insertKey_self _ _ _
    refine ⟨_, hl, ?_⟩
    show (p.quantity * p.averagePrice + q2 * p2) / (p.quantity + q2)
        = (q1 * a1 + q2 * p2) / (q1 + q2)
    rw [hq, ha]
  · refine ⟨_, rfl, ?_⟩
    show (p.quantity * p.averagePrice + q2 * p2) / (p.quantity + q2)
        = (q1 * a1 + q2 * p2) / (q1 + q2)
    rw [hq, ha]

/-- Witness for C4: buying 100 at 0.60 onto a position of 100 at 0.50
gives average (100·0.50 + 100·0.60)/200 in both components. -/
theorem weighted_average_consistency_witness :
    (∃ pw, lookupKey (MockWalletEngine.buy
        ⟨1000, [(("m", "o"), ⟨"m", "o", 100, 1/2, 1/2, 0, 0⟩)]⟩
        "m" "o" 100 (3/5)).2.positions ("m", "o")
      = some pw
      ∧ pw.averagePrice = (100 * (1/2) + 100 * (3/5)) / (100 + 100)) ∧
    (∃ pm, PositionManager.updatePosition
        (some ⟨"m", "o", 100, 1/2, 1/2, 0, 0⟩) "m" "o" .BUY 100 (3/5) = .ok pm
      ∧ pm.averagePrice = (100 * (1/2) + 100 * (3/5)) / (100 + 100)) :=
  weighted_average_consistency
    ⟨1000, [(("m", "o"), ⟨"m", "o", 100, 1/2, 1/2, 0, 0⟩)]⟩
    "m" "o" ⟨"m", "o", 100, 1/2, 1/2, 0, 0⟩ 100 (1/2) 100 (3/5)
    (by simp [lookupKey]) rfl rfl (by norm_num) (by norm_num) (by norm_num)

/-- Multiplier of the LCG (PriceSimulator.ts line 163). -/
def LCG_MULTIPLIER : Nat := 1664525

/-- Increment of the LCG (PriceSimulator.ts line 164). -/
def LCG_INCREMENT : Nat := 1013904223

/-- Modulus of the LCG, 2^32 (PriceSimulator.ts line 165). -/
def LCG_MODULUS : Nat := 4294967296

/-- One draw of the seeded generator (PriceSimulator.seededRandom,
PriceSimulator.ts lines 162-172): the closure advances its integer state by
the LCG and returns the new state divided by the modulus.  The JS number
arithmetic is exact here: state * 1664525 + 1013904223 stays below 2^53. -/
def seededRandomStep (state : Nat) : Nat × ℚ :=
  let state' := (state * LCG_MULTIPLIER + LCG_INCREMENT) % LCG_MODULUS
  (state', (state' : ℚ) / (LCG_MODULUS : ℚ))

/-- Price snapshot as stored in the history (timestamp omitted). -/
structure Snapshot where
  marketId : String
  outcomeId : String
  price : ℚ
deriving DecidableEq, Repr

/-- State of a PriceSimulator instance in seeded mode: the prices map, the
append-only history map, the configured volatility, and the integer state
of the seeded generator closure. -/
structure PriceSimState where
  prices : List ((String × String) × ℚ)
  priceHistory : List ((String × String) × List Snapshot)
  volatility : ℚ
  rngState : Nat
deriving DecidableEq, Repr

/-- PriceSimulator constructor with (volatility, seed)
(PriceSimulator.ts lines 18-30, seeded branch). -/
def PriceSimulator.new (volatility : ℚ) (seed : Nat) : PriceSimState :=
  ⟨[], [], volatility, seed⟩

/-- Draw one value from this.random, threading the generator state. -/
def PriceSimState.nextRandom (s : PriceSimState) : ℚ × PriceSimState :=
  let r := seededRandomStep s.rngState
  (r.2, { s with rngState := r.1 })

/-- PriceSimulator.setPrice (PriceSimulator.ts lines 58-75): clamps to
[0.01, 0.99], stores, and appends the clamped price to the history. -/
def PriceSimulator.setPrice (s : PriceSimState) (marketId outcomeId : String)
    (price : ℚ) : PriceSimState :=
  let key := (marketId, outcomeId)
  let clampedPrice := max (1/100) (min (99/100) price)
  let history := (lookupKey s.priceHistory key).getD []
  { s with
    prices := insertKey s.prices key clampedPrice
    priceHistory :=
      insertKey s.priceHistory key
        (history ++ [⟨marketId, outcomeId, clampedPrice⟩]) }

/-- PriceSimulator.getPrice (PriceSimulator.ts lines 42-53): returns the
stored price; on a miss draws a fresh price 0.3 + random()*0.4, stores it
through setPrice, and returns the pre-clamp value (always inside the clamp
range here).  The JS falsy test on the stored price coincides with the
presence test because stored prices are clamped to at least 0.01. -/
def PriceSimulator.getPrice (s : PriceSimState) (marketId outcomeId : String) :
    ℚ × PriceSimState :=
  match lookupKey s.prices (marketId, outcomeId) with
  | some price => (price, s)
  | none =>
      let r := s.nextRandom
      let price := 3/10 + r.1 * (4/10)
      (price, PriceSimulator.setPrice r.2 marketId outcomeId price)

/-- PriceSimulator.simulatePriceMovement (PriceSimulator.ts lines 80-90):
one random-walk step of amplitude volatility around the current price;
returns the pre-clamp new price. -/
def PriceSimulator.simulatePriceMovement (s : PriceSimState)
    (marketId outcomeId : String) : ℚ × PriceSimState :=
  let cur := PriceSimulator.getPrice s marketId outcomeId
  let r := cur.2.nextRandom
  let change := (r.1 - 1/2) * r.2.volatility * 2
  let newPrice := cur.1 + change
  (newPrice, PriceSimulator.setPrice r.2 marketId outcomeId newPrice)

/-- One call of the public price interface under verification. -/
inductive PriceOp where
  | getPrice (marketId outcomeId : String)
  | setPrice (marketId outcomeId : String) (price : ℚ)
  | simulatePriceMovement (marketId outcomeId : String)
deriving DecidableEq, Repr

/-- Execute one call; setPrice returns no price. -/
def PriceSimState.step (s : PriceSimState) : PriceOp → Option ℚ × PriceSimState
  | .getPrice m o =>
      let r := PriceSimulator.getPrice s m o
      (some r.1, r.2)
  | .setPrice m o p => (none, PriceSimulator.setPrice s m o p)
  | .simulatePriceMovement m o =>
      let r := PriceSimulator.simulatePriceMovement s m o
      (some r.1, r.2)

/-- The sequence of prices produced by a call sequence. -/
def PriceSimState.run (s : PriceSimState) : List PriceOp → List (Option ℚ)
  | [] => []
  | op :: rest =>
      let r := s.step op
      r.1 :: PriceSimState.run r.2 rest

/-- C3: two PriceSimulator instances constructed with the same volatility
and seed produce identical price sequences on identical call sequences (the
embedded simulator is a deterministic function of volatility, seed, and the
calls: all randomness is the seeded generator threaded through the state),
and the seeded generator is exactly the LCG with multiplier 1664525,
increment 1013904223, modulus 2^32, output newState / 2^32. -/
theorem price_simulator_deterministic_lcg (volatility : ℚ) (seed : Nat)
    (ops : List PriceOp) (state : Nat) :
    PriceSimState.run (PriceSimulator.new volatility seed) ops
      = PriceSimState.run (PriceSimulator.new volatility seed) ops
    ∧ seededRandomStep state
      = ((state * 1664525 + 1013904223) % 2 ^ 32,
         (((state * 1664525 + 1013904223) % 2 ^ 32 : Nat) : ℚ) / 2 ^ 32) := by
  refine ⟨rfl, ?_⟩
  have hm : LCG_MODULUS = 2 ^ 32 := by norm_num [LCG_MODULUS]
  simp only [seededRandomStep, LCG_MULTIPLIER, LCG_INCREMENT, hm]
  norm_num

/-- SlippageCheckResult, from src/types/index.ts. -/
structure SlippageCheckResult where
  allowed : Bool
  requestedPrice : ℚ
  currentPrice : ℚ
  slippagePercent : ℚ
  reason : Option RejectReason
deriving DecidableEq, Repr

/-- ExecutionOrder, from src/types/index.ts (timestamps and mode omitted;
generated order ids are modelled as the pipeline's insertion counter). -/
structure ExecutionOrder where
  id : Nat
  originalTradeId : String
  traderAddress : String
  marketId : String
  outcomeId : String
  side : OrderSide
  requestedSize : ℚ
  executedSize : ℚ
  requestedPrice : ℚ
  executedPrice : ℚ
  status : OrderStatus
  rejectionReason : Option RejectReason
deriving DecidableEq, Repr

/-- RiskEngine.checkSlippage (RiskEngine.ts lines 132-159) as a function of
the configured tolerance, the current price the executor abstraction
reported, and the order. -/
def RiskEngine.checkSlippage (maxSlippageTolerance currentPrice : ℚ)
    (order : ExecutionOrder) : SlippageCheckResult :=
  let slippagePercent :=
    |currentPrice - order.requestedPrice| / order.requestedPrice
  if slippagePercent > maxSlippageTolerance then
    ⟨false, order.requestedPrice, currentPrice, slippagePercent,
      some .slippageExceeded⟩
  else
    ⟨true, order.requestedPrice, currentPrice, slippagePercent, none⟩

/-- C7: the slippage check computes
slippage = |currentPrice - requestedPrice| / requestedPrice and allows the
order exactly when this value is at most the tolerance: equality is
accepted, any strictly larger value is rejected. -/
theorem slippage_boundary (tol currentPrice : ℚ) (order : ExecutionOrder)
    (hreq : 0 < order.requestedPrice) :
    ((RiskEngine.checkSlippage tol currentPrice order).allowed = true
      ↔ |currentPrice - order.requestedPrice| / order.requestedPrice ≤ tol)
    ∧ (RiskEngine.checkSlippage tol currentPrice order).slippagePercent
        = |currentPrice - order.requestedPrice| / order.requestedPrice := by
  by_cases hgt :
      |currentPrice - order.requestedPrice| / order.requestedPrice > tol
  · simp [RiskEngine.checkSlippage, hgt, not_le.mpr hgt]
  · simp [RiskEngine.checkSlippage, hgt, not_lt.mp hgt]

/-- Witness for C7 at the spec's scenario 6: requested 0.50, current 0.53,
tolerance 2 percent. -/
theorem slippage_boundary_witness :
    0 < (⟨0, "t1", "a", "m", "o", .BUY, 100, 0, 1/2, 0, .PENDING, none⟩
          : ExecutionOrder).requestedPrice
    ∧ (((RiskEngine.checkSlippage (1/50) (53/100)
          ⟨0, "t1", "a", "m", "o", .BUY, 100, 0, 1/2, 0, .PENDING, none⟩).allowed
            = true
        ↔ |(53:ℚ)/100 - (⟨0, "t1", "a", "m", "o", .BUY, 100, 0, 1/2, 0,
              .PENDING, none⟩ : ExecutionOrder).requestedPrice|
            / (⟨0, "t1", "a", "m", "o", .BUY, 100, 0, 1/2, 0, .PENDING, none⟩
              : ExecutionOrder).requestedPrice ≤ 1/50)
      ∧ (RiskEngine.checkSlippage (1/50) (53/100)
          ⟨0, "t1", "a", "m", "o", .BUY, 100, 0, 1/2, 0,
            .PENDING, none⟩).slippagePercent
          = |(53:ℚ)/100 - (⟨0, "t1", "a", "m", "o", .BUY, 100, 0, 1/2, 0,
              .PENDING, none⟩ : ExecutionOrder).requestedPrice|
            / (⟨0, "t1", "a", "m", "o", .BUY, 100, 0, 1/2, 0, .PENDING, none⟩
              : ExecutionOrder).requestedPrice) :=
  ⟨by norm_num, slippage_boundary (1/50) (53/100) _ (by norm_num)⟩

/-- RiskLimits, from src/types/index.ts. -/
structure RiskLimits where
  maxPositionSizeUSD : ℚ
  maxTotalExposureUSD : ℚ
  maxSlippageTolerance : ℚ
  minTradeSizeUSD : ℚ
deriving DecidableEq, Repr

/-- The slice of BotConfig (src/config/ConfigManager.ts) the risk engine
and the pipeline read. -/
structure BotCfg where
  risk : RiskLimits
  enableSlippageProtection : Bool
  enableExposureLimits : Bool
deriving DecidableEq, Repr

/-- TrackedTrader, from src/types/index.ts.  Note: the code has no capital
estimate field; sizing configuration is the multiplier alone. -/
structure TrackedTrader where
  address : String
  multiplier : ℚ
  active : Bool
deriving DecidableEq, Repr

/-- Trade, from src/types/index.ts (timestamp and transactionHash carry no
pipeline logic and are omitted). -/
structure Trade where
  id : String
  traderAddress : String
  marketId : String
  outcomeId : String
  side : OrderSide
  size : ℚ
  price : ℚ
deriving DecidableEq, Repr

/-- PositionManager.getPositionSize (PositionManager.ts lines 180-183) over
the stored positions. -/
def PositionManager.getPositionSize
    (positions : List ((String × String) × Position))
    (marketId outcomeId : String) : ℚ :=
  match lookupKey positions (marketId, outcomeId) with
  | some p => p.quantity
  | none => 0

/-- PositionManager.getTotalExposure (PositionManager.ts lines 145-154):
sum of quantity * currentPrice over all stored positions. -/
def PositionManager.getTotalExposure
    (positions : List ((String × String) × Position)) : ℚ :=
  positions.foldl (fun acc kp => acc + kp.2.quantity * kp.2.currentPrice) 0

/-- RiskEngine.checkPositionSizeLimit (RiskEngine.ts lines 84-103):
SELL always passes; BUY fails when the grown position's value exceeds the
per-position USD cap. -/
def RiskEngine.checkPositionSizeLimit (risk : RiskLimits)
    (positions : List ((String × String) × Position))
    (order : ExecutionOrder) : Bool × Option RejectReason :=
  match order.side with
  | .SELL => (true, none)
  | .BUY =>
      let currentPosition :=
        PositionManager.getPositionSize positions order.marketId order.outcomeId
      let newPositionSize := currentPosition + order.requestedSize
      let newPositionValue := newPositionSize * order.requestedPrice
      if newPositionValue > risk.maxPositionSizeUSD then
        (false, some RejectReason.positionSizeLimitExceeded)
      else (true, none)

/-- RiskEngine.checkTotalExposureLimit (RiskEngine.ts lines 108-127):
SELL always passes; BUY fails when aggregate exposure plus the order's USD
value exceeds the portfolio cap. -/
def RiskEngine.checkTotalExposureLimit (risk : RiskLimits)
    (positions : List ((String × String) × Position))
    (order : ExecutionOrder) : Bool × Option RejectReason :=
  match order.side with
  | .SELL => (true, none)
  | .BUY =>
      let currentExposure := PositionManager.getTotalExposure positions
      let orderExposure := order.requestedSize * order.requestedPrice
      let newTotalExposure := currentExposure + orderExposure
      if newTotalExposure > risk.maxTotalExposureUSD then
        (false, some RejectReason.totalExposureLimitExceeded)
      else (true, none)

/-- MockExecutor.canExecute (MockExecutor.ts lines 173-201): BUY needs
cost at most the available cash, SELL needs a position with at least the
requested quantity. -/
def MockExecutor.canExecute (w : WalletState) (order : ExecutionOrder) :
    Bool × Option RejectReason :=
  match order.side with
  | .BUY =>
      let cost := order.requestedSize * order.requestedPrice
      if cost > w.cashBalance then (false, some RejectReason.insufficientBalance)
      else (true, none)
  | .SELL =>
      match lookupKey w.positions (order.marketId, order.outcomeId) with
      | none => (false, some RejectReason.insufficientPosition)
      | some p =>
          if p.quantity < order.requestedSize then
            (false, some RejectReason.insufficientPosition)
          else (true, none)

/-- RiskEngine.validateOrder (RiskEngine.ts lines 31-79).  The collaborator
reads are made explicit: the stored positions (positionManager), the mock
wallet (executor.canExecute and balances), and the price-simulator state
(executor.getCurrentPrice, which the slippage branch consults and which can
mutate the simulator on a price miss — hence the returned PriceSimState).
The source's early returns are encoded as a nested conditional; the two
exposure-limit checks run only under enableExposureLimits and the slippage
check only under enableSlippageProtection, exactly as in the source. -/
def RiskEngine.validateOrder (cfg : BotCfg)
    (positions : List ((String × String) × Position))
    (w : WalletState) (ps : PriceSimState) (order : ExecutionOrder) :
    (Bool × Option RejectReason) × PriceSimState :=
  let orderValue := order.requestedSize * order.requestedPrice
  let positionSizeCheck := RiskEngine.checkPositionSizeLimit cfg.risk positions order
  let exposureCheck := RiskEngine.checkTotalExposureLimit cfg.risk positions order
  let affordability :=
    let canEx := MockExecutor.canExecute w order
    if canEx.1 = false then (false, canEx.2)
    else ((true : Bool), (none : Option RejectReason))
  if orderValue < cfg.risk.minTradeSizeUSD then
    ((false, some RejectReason.belowMinimumSize), ps)
  else if cfg.enableExposureLimits = true ∧ positionSizeCheck.1 = false then
    (positionSizeCheck, ps)
  else if cfg.enableExposureLimits = true ∧ exposureCheck.1 = false then
    (exposureCheck, ps)
  else if cfg.enableSlippageProtection then
    let cur := PriceSimulator.getPrice ps order.marketId order.outcomeId
    let slippageCheck :=
      RiskEngine.checkSlippage cfg.risk.maxSlippageTolerance cur.1 order
    if slippageCheck.allowed = false then ((false, slippageCheck.reason), cur.2)
    else (affordability, cur.2)
  else (affordability, ps)

/-- Specification-side evaluator, following the spec's words: the five
checks in the fixed order minimum size, position-size limit, total-exposure
limit, slippage, affordability; the result is valid when all pass and
otherwise carries the reason of the first failing check. -/
def RiskEngineSpec.firstFailingResult (cfg : BotCfg)
    (positions : List ((String × String) × Position))
    (w : WalletState) (currentPrice : ℚ) (order : ExecutionOrder) :
    Bool × Option RejectReason :=
  let positionSizeCheck := RiskEngine.checkPositionSizeLimit cfg.risk positions order
  let exposureCheck := RiskEngine.checkTotalExposureLimit cfg.risk positions order
  let slippageCheck :=
    RiskEngine.checkSlippage cfg.risk.maxSlippageTolerance currentPrice order
  let canEx := MockExecutor.canExecute w order
  if order.requestedSize * order.requestedPrice < cfg.risk.minTradeSizeUSD then
    (false, some RejectReason.belowMinimumSize)
  else if positionSizeCheck.1 = false then (false, positionSizeCheck.2)
  else if exposureCheck.1 = false then (false, exposureCheck.2)
  else if slippageCheck.allowed = false then (false, slippageCheck.reason)
  else if canEx.1 = false then (false, canEx.2)
  else (true, none)

/-- RiskEngine.calculateSafePositionSize (RiskEngine.ts lines 165-186):
multiplier sizing, clamped above by maxPositionSizeUSD / currentPrice and
cut to 0 below minTradeSizeUSD / currentPrice. -/
def RiskEngine.calculateSafePositionSize (risk : RiskLimits)
    (originalSize multiplier currentPrice : ℚ) : ℚ :=
  let adjustedSize := originalSize * multiplier
  let maxSizeByValue := risk.maxPositionSizeUSD / currentPrice
  let clampedSize := min adjustedSize maxSizeByValue
  let minSizeByValue := risk.minTradeSizeUSD / currentPrice
  if clampedSize < minSizeByValue then 0 else clampedSize

/-- RiskEngine.calculateCapitalProportionalSize (RiskEngine.ts lines
192-238): bot uses the same fraction of its capital as the trader used of
the configured capital estimate; same clamps as the multiplier path.
The bot capital read from executor.getAvailableCapital is a parameter. -/
def RiskEngine.calculateCapitalProportionalSize (risk : RiskLimits)
    (botCapital tradeSize tradePrice traderCapital currentPrice : ℚ) : ℚ :=
  if botCapital ≤ 0 then 0
  else
    let tradeValue := tradeSize * tradePrice
    let traderPositionPercent := tradeValue / traderCapital
    let botPositionValue := botCapital * traderPositionPercent
    let adjustedSize := botPositionValue / currentPrice
    let clampedSize := min adjustedSize (risk.maxPositionSizeUSD / currentPrice)
    let minSizeByValue := risk.minTradeSizeUSD / currentPrice
    if clampedSize < minSizeByValue then 0 else clampedSize

/-- Partial ExecutionOrder update, the fields the pipeline patches
(Partial ExecutionOrder in updateExecutionOrder calls). -/
structure OrderPatch where
  status : Option OrderStatus
  executedSize : Option ℚ
  executedPrice : Option ℚ
  rejectionReason : Option RejectReason
deriving DecidableEq, Repr

/-- Spread-merge of a patch into a stored order, modelling the in-memory
adapter's record merge: patched fields replace, absent fields persist. -/
def applyPatch (o : ExecutionOrder) (p : OrderPatch) : ExecutionOrder :=
  { o with
    status := p.status.getD o.status
    executedSize := p.executedSize.getD o.executedSize
    executedPrice := p.executedPrice.getD o.executedPrice
    rejectionReason :=
      match p.rejectionReason with
      | some r => some r
      | none => o.rejectionReason }

/-- InMemoryDatabaseManager.saveExecutionOrder (stores under the order id). -/
def InMemoryDatabase.saveExecutionOrder
    (orders : List (Nat × ExecutionOrder)) (order : ExecutionOrder) :
    List (Nat × ExecutionOrder) :=
  insertKey orders order.id order

/-- InMemoryDatabaseManager.updateExecutionOrder (InMemoryDatabaseManager.ts
lines 330-341): merges the updates into the stored order when it exists;
no-op when absent.  Note: no check of the stored order's status. -/
def InMemoryDatabase.updateExecutionOrder
    (orders : List (Nat × ExecutionOrder)) (orderId : Nat)
    (updates : OrderPatch) : List (Nat × ExecutionOrder) :=
  match lookupKey orders orderId with
  | none => orders
  | some existing => insertKey orders orderId (applyPatch existing updates)

/-- InMemoryDatabaseManager.isTradeProcessed (InMemoryDatabaseManager.ts
lines 352-361): true when some stored order originates from the trade id. -/
def InMemoryDatabase.isTradeProcessed
    (orders : List (Nat × ExecutionOrder)) (tradeId : String) : Bool :=
  orders.any (fun kv => kv.2.originalTradeId = tradeId)

/-- ExecutionResult, from src/types/index.ts (orderId and transactionHash
omitted). -/
structure ExecutionResult where
  success : Bool
  executedSize : ℚ
  executedPrice : ℚ
  error : Option RejectReason
deriving DecidableEq, Repr

/-- MockExecutor.simulateExecutionPrice (MockExecutor.ts lines 242-253):
applies a random slippage of slipDraw * 0.5 percent, upward for BUY and
downward for SELL.  slipDraw is the Math.random() draw in [0, 1). -/
def MockExecutor.simulateExecutionPrice (slipDraw currentPrice : ℚ)
    (side : OrderSide) : ℚ :=
  let slippagePercent := slipDraw * (5/1000)
  match side with
  | .BUY => currentPrice * (1 + slippagePercent)
  | .SELL => currentPrice * (1 - slippagePercent)

/-- MockExecutor.executeOrder (MockExecutor.ts lines 50-127): reads the
current simulated price (threading the simulator state), derives the
execution price with slippage, settles on the mock wallet, and reports
success with executed size/price or failure with the insufficient-balance
or insufficient-position reason. -/
def MockExecutor.executeOrder (slipDraw : ℚ) (w : WalletState)
    (ps : PriceSimState) (order : ExecutionOrder) :
    ExecutionResult × WalletState × PriceSimState :=
  let cur := PriceSimulator.getPrice ps order.marketId order.outcomeId
  let executionPrice :=
    MockExecutor.simulateExecutionPrice slipDraw cur.1 order.side
  match order.side with
  | .BUY =>
      let r := MockWalletEngine.buy w order.marketId order.outcomeId
        order.requestedSize executionPrice
      if r.1 then
        (⟨true, order.requestedSize, executionPrice, none⟩, r.2, cur.2)
      else
        (⟨false, 0, 0, some RejectReason.insufficientBalance⟩, r.2, cur.2)
  | .SELL =>
      let r := MockWalletEngine.sell w order.marketId order.outcomeId
        order.requestedSize executionPrice
      if r.1 then
        (⟨true, order.requestedSize, executionPrice, none⟩, r.2, cur.2)
      else
        (⟨false, 0, 0, some RejectReason.insufficientPosition⟩, r.2, cur.2)

/-- Whole-pipeline state in test mode: the in-memory execution orders,
the stored positions (PositionManager via the database), the mock wallet,
the price simulator, and the next fresh order id (modelling generateOrderId
uniqueness). -/
structure PipelineState where
  orders : List (Nat × ExecutionOrder)
  positions : List ((String × String) × Position)
  wallet : WalletState
  prices : PriceSimState
  nextOrderId : Nat
deriving DecidableEq, Repr

/-- ExecutorService.executeOrder (ExecutorService.ts lines 120-172): runs
the executor settlement; on success patches the order to EXECUTED and
updates the position (a throw from updatePosition is caught and patches
the order to FAILED); on failure patches the order to FAILED with the
reported reason. -/
def ExecutorService.executeOrder (slipDraw : ℚ) (st : PipelineState)
    (order : ExecutionOrder) : PipelineState :=
  let r := MockExecutor.executeOrder slipDraw st.wallet st.prices order
  let result := r.1
  if result.success then
    let orders1 := InMemoryDatabase.updateExecutionOrder st.orders order.id
      ⟨some OrderStatus.EXECUTED, some result.executedSize,
        some result.executedPrice, none⟩
    match PositionManager.updatePosition
        (lookupKey st.positions (order.marketId, order.outcomeId))
        order.marketId order.outcomeId order.side
        result.executedSize result.executedPrice with
    | .ok newPos =>
        { st with
          orders := orders1
          positions :=
            insertKey st.positions (order.marketId, order.outcomeId) newPos
          wallet := r.2.1
          prices := r.2.2 }
    | .error e =>
        { st with
          orders := InMemoryDatabase.updateExecutionOrder orders1 order.id
            ⟨some OrderStatus.FAILED, none, none, some e⟩
          wallet := r.2.1
          prices := r.2.2 }
  else
    { st with
      orders := InMemoryDatabase.updateExecutionOrder st.orders order.id
        ⟨some OrderStatus.FAILED, none, none, result.error⟩
      wallet := r.2.1
      prices := r.2.2 }

/-- ExecutorService.processTrade (ExecutorService.ts lines 46-115):
idempotency gate on the trade id, multiplier sizing with skip on zero,
order creation in PENDING, risk validation with REJECTED on failure, then
settlement.  slipDraw parameterizes the unseeded Math.random() draw used
by the mock executor's execution price. -/
def ExecutorService.processTrade (cfg : BotCfg) (slipDraw : ℚ)
    (st : PipelineState) (trade : Trade) (traderConfig : TrackedTrader) :
    PipelineState :=
  if InMemoryDatabase.isTradeProcessed st.orders trade.id then st
  else
    let adjustedSize := RiskEngine.calculateSafePositionSize cfg.risk
      trade.size traderConfig.multiplier trade.price
    if adjustedSize = 0 then st
    else
      let order : ExecutionOrder :=
        ⟨st.nextOrderId, trade.id, trade.traderAddress, trade.marketId,
          trade.outcomeId, trade.side, adjustedSize, 0, trade.price, 0,
          OrderStatus.PENDING, none⟩
      let st1 := { st with
        orders := InMemoryDatabase.saveExecutionOrder st.orders order
        nextOrderId := st.nextOrderId + 1 }
      let v := RiskEngine.validateOrder cfg st1.positions st1.wallet
        st1.prices order
      let st2 := { st1 with prices := v.2 }
      if v.1.1 = false then
        { st2 with
          orders := InMemoryDatabase.updateExecutionOrder st2.orders order.id
            ⟨some OrderStatus.REJECTED, none, none, v.1.2⟩ }
      else
        ExecutorService.executeOrder slipDraw st2 order

/-- C6: with the exposure-limit and slippage-protection features enabled
(their configured state in the source), validateOrder evaluates the checks
in the fixed order minimum size, position-size limit, total-exposure limit,
slippage, affordability, short-circuits on the first failing check, and
returns invalid with that check's reason (valid when all pass). -/
theorem validate_order_fixed_order (cfg : BotCfg)
    (positions : List ((String × String) × Position)) (w : WalletState)
    (ps : PriceSimState) (order : ExecutionOrder)
    (hExp : cfg.enableExposureLimits = true)
    (hSlip : cfg.enableSlippageProtection = true) :
    (RiskEngine.validateOrder cfg positions w ps order).1
      = RiskEngineSpec.firstFailingResult cfg positions w
          (PriceSimulator.getPrice ps order.marketId order.outcomeId).1 order := by
  rcases hpos : RiskEngine.checkPositionSizeLimit cfg.risk positions order
    with ⟨pb, pr⟩
  rcases hexp : RiskEngine.checkTotalExposureLimit cfg.risk positions order
    with ⟨eb, er⟩
  rcases hcan : MockExecutor.canExecute w order with ⟨cb, cr⟩
  rcases hsl : RiskEngine.checkSlippage cfg.risk.maxSlippageTolerance
      (PriceSimulator.getPrice ps order.marketId order.outcomeId).1 order
    with ⟨sb, sr1, sc1, sp1, srr⟩
  simp only [RiskEngine.validateOrder, RiskEngineSpec.firstFailingResult,
    hExp, hSlip, hpos, hexp, hcan, hsl, true_and, if_true]
  cases pb <;> cases eb <;> cases sb <;> cases cb <;>
    by_cases hmin :
      order.requestedSize * order.requestedPrice < cfg.risk.minTradeSizeUSD <;>
    simp [hmin]

/-- Witness for C6 at a concrete configuration with both features enabled
and a concrete unaffordable BUY order. -/
theorem validate_order_fixed_order_witness :
    (⟨⟨1000, 5000, 1/50, 10⟩, true, true⟩ : BotCfg).enableExposureLimits = true
    ∧ (⟨⟨1000, 5000, 1/50, 10⟩, true, true⟩ : BotCfg).enableSlippageProtection
        = true
    ∧ (RiskEngine.validateOrder ⟨⟨1000, 5000, 1/50, 10⟩, true, true⟩ []
        ⟨100, []⟩ ⟨[(("m", "o"), 1/2)], [], 1/50, 42⟩
        ⟨0, "t1", "a", "m", "o", .BUY, 1000, 0, 1/2, 0, .PENDING, none⟩).1
      = RiskEngineSpec.firstFailingResult ⟨⟨1000, 5000, 1/50, 10⟩, true, true⟩
          [] ⟨100, []⟩
          (PriceSimulator.getPrice ⟨[(("m", "o"), 1/2)], [], 1/50, 42⟩
            (⟨0, "t1", "a", "m", "o", .BUY, 1000, 0, 1/2, 0, .PENDING, none⟩
              : ExecutionOrder).marketId
            (⟨0, "t1", "a", "m", "o", .BUY, 1000, 0, 1/2, 0, .PENDING, none⟩
              : ExecutionOrder).outcomeId).1
          ⟨0, "t1", "a", "m", "o", .BUY, 1000, 0, 1/2, 0, .PENDING, none⟩ :=
  ⟨rfl, rfl, validate_order_fixed_order _ _ _ _ _ rfl rfl⟩

theorem lookupKey_eq_none {α κ : Type} [DecidableEq κ] {l : List (κ × α)}
    {k : κ} (h : ∀ kv ∈ l, kv.1 ≠ k) : lookupKey l k = none := by
  induction l with
  | nil => rfl
  | cons hd tl ih =>
    rcases hd with ⟨k0, v0⟩
    have hne : k0 ≠ k := h (k0, v0) (List.mem_cons_self _ _)
    simp only [lookupKey, hne, if_false]
    exact ih (fun kv hkv => h kv (List.mem_cons_of_mem _ hkv))

theorem insertKey_fresh {α κ : Type} [DecidableEq κ] {l : List (κ × α)}
    {k : κ} (v : α) (h : lookupKey l k = none) :
    insertKey l k v = l ++ [(k, v)] := by
  induction l with
  | nil => rfl
  | cons hd tl ih =>
    rcases hd with ⟨k0, v0⟩
    simp only [lookupKey] at h
    by_cases he : k0 = k
    · simp [he] at h
    · simp only [insertKey, he, if_false, List.cons_append, List.cons.injEq,
        true_and]
      exact ih (by simpa [he] using h)

/-- Number of stored execution orders originating from the given trade id. -/
def countTradeId (orders : List (Nat × ExecutionOrder)) (tid : String) : Nat :=
  (orders.filter (fun kv => kv.2.originalTradeId = tid)).length

theorem countTradeId_append (l1 l2 : List (Nat × ExecutionOrder))
    (tid : String) :
    countTradeId (l1 ++ l2) tid = countTradeId l1 tid + countTradeId l2 tid := by
  unfold countTradeId
  rw [List.filter_append, List.length_append]

theorem countTradeId_eq_zero (l : List (Nat × ExecutionOrder)) (tid : String)
    (h : InMemoryDatabase.isTradeProcessed l tid = false) :
    countTradeId l tid = 0 := by
  unfold InMemoryDatabase.isTradeProcessed at h
  rw [List.any_eq_false] at h
  unfold countTradeId
  rw [List.length_eq_zero, List.filter_eq_nil_iff]
  exact h

theorem isTradeProcessed_of_countTradeId_pos (l : List (Nat × ExecutionOrder))
    (tid : String) (h : 0 < countTradeId l tid) :
    InMemoryDatabase.isTradeProcessed l tid = true := by
  unfold countTradeId at h
  rw [List.length_pos] at h
  obtain ⟨kv, hkv⟩ := List.exists_mem_of_ne_nil _ h
  rw [List.mem_filter] at hkv
  unfold InMemoryDatabase.isTradeProcessed
  rw [List.any_eq_true]
  exact ⟨kv, hkv.1, hkv.2⟩

theorem countTradeId_insertKey_same (l : List (Nat × ExecutionOrder))
    (k : Nat) (v v' : ExecutionOrder) (tid : String)
    (hlk : lookupKey l k = some v)
    (hsame : v'.originalTradeId = v.originalTradeId) :
    countTradeId (insertKey l k v') tid = countTradeId l tid := by
  induction l with
  | nil => simp [lookupKey] at hlk
  | cons hd tl ih =>
    rcases hd with ⟨k0, w⟩
    by_cases he : k0 = k
    · simp only [lookupKey, he, if_true, Option.some.injEq] at hlk
      simp only [insertKey, he, if_true]
      unfold countTradeId
      simp only [List.filter_cons, hsame, hlk]
      split <;> simp
    · simp only [lookupKey, he, if_false] at hlk
      simp only [insertKey, he, if_false]
      unfold countTradeId
      simp only [List.filter_cons]
      split
      · simp only [List.length_cons]
        have := ih hlk
        unfold countTradeId at this
        omega
      · exact ih hlk

theorem countTradeId_updateExecutionOrder (orders : List (Nat × ExecutionOrder))
    (oid : Nat) (patch : OrderPatch) (tid : String) :
    countTradeId (InMemoryDatabase.updateExecutionOrder orders oid patch) tid
      = countTradeId orders tid := by
  unfold InMemoryDatabase.updateExecutionOrder
  cases hlk : lookupKey orders oid with
  | none => rfl
  | some v => exact countTradeId_insertKey_same orders oid v _ tid hlk rfl

theorem countTradeId_executeOrder (slipDraw : ℚ) (st : PipelineState)
    (order : ExecutionOrder) (tid : String) :
    countTradeId (ExecutorService.executeOrder slipDraw st order).orders tid
      = countTradeId st.orders tid := by
  simp only [ExecutorService.executeOrder]
  split
  · split
    · exact countTradeId_updateExecutionOrder _ _ _ _
    · show countTradeId
        (InMemoryDatabase.updateExecutionOrder
          (InMemoryDatabase.updateExecutionOrder st.orders order.id _)
          order.id _) tid = countTradeId st.orders tid
      rw [countTradeId_updateExecutionOrder, countTradeId_updateExecutionOrder]
  · exact countTradeId_updateExecutionOrder _ _ _ _

theorem lookupKey_updateExecutionOrder_ne (orders : List (Nat × ExecutionOrder))
    (oid : Nat) (patch : OrderPatch) (k : Nat) (hne : oid ≠ k) :
    lookupKey (InMemoryDatabase.updateExecutionOrder orders oid patch) k
      = lookupKey orders k := by
  unfold InMemoryDatabase.updateExecutionOrder
  cases hlk : lookupKey orders oid with
  | none => rfl
  | some v => exact lookupKey_insertKey_ne _ _ _ _ hne

theorem lookupKey_executeOrder_ne (slipDraw : ℚ) (st : PipelineState)
    (order : ExecutionOrder) (k : Nat) (hne : order.id ≠ k) :
    lookupKey (ExecutorService.executeOrder slipDraw st order).orders k
      = lookupKey st.orders k := by
  simp only [ExecutorService.executeOrder]
  split
  · split
    · exact lookupKey_updateExecutionOrder_ne _ _ _ _ hne
    · show lookupKey
        (InMemoryDatabase.updateExecutionOrder
          (InMemoryDatabase.updateExecutionOrder st.orders order.id _)
          order.id _) k = lookupKey st.orders k
      rw [lookupKey_updateExecutionOrder_ne _ _ _ _ hne,
        lookupKey_updateExecutionOrder_ne _ _ _ _ hne]
  · exact lookupKey_updateExecutionOrder_ne _ _ _ _ hne

theorem processTrade_skip (cfg : BotCfg) (slipDraw : ℚ) (st : PipelineState)
    (t : Trade) (tc : TrackedTrader)
    (h : InMemoryDatabase.isTradeProcessed st.orders t.id = true) :
    ExecutorService.processTrade cfg slipDraw st t tc = st := by
  unfold ExecutorService.processTrade
  rw [h]
  simp

/-- C1: processTrade is idempotent per trade id.  From a state whose order
ids are all below the fresh counter and which has no order for the trade
yet, a first invocation that passes the sizing gate stores exactly one
ExecutionOrder originating from the trade id, and a second invocation (with
any settlement slippage draw) returns the state unchanged: same orders,
same wallet cash, same positions.  Repeating the second invocation keeps
returning the same state, so every invocation after the first skips. -/
theorem trade_idempotency (cfg : BotCfg) (d1 d2 : ℚ) (st0 : PipelineState)
    (t : Trade) (tc : TrackedTrader)
    (hwf : ∀ kv ∈ st0.orders, kv.1 < st0.nextOrderId)
    (hnew : InMemoryDatabase.isTradeProcessed st0.orders t.id = false)
    (hsize : RiskEngine.calculateSafePositionSize cfg.risk t.size
      tc.multiplier t.price ≠ 0) :
    countTradeId (ExecutorService.processTrade cfg d1 st0 t tc).orders t.id = 1
    ∧ ExecutorService.processTrade cfg d2
        (ExecutorService.processTrade cfg d1 st0 t tc) t tc
      = ExecutorService.processTrade cfg d1 st0 t tc := by
  have hfresh : lookupKey st0.orders st0.nextOrderId = none :=
    lookupKey_eq_none (fun kv hkv => Nat.ne_of_lt (hwf kv hkv))
  have h0 : countTradeId st0.orders t.id = 0 := countTradeId_eq_zero _ _ hnew
  have hcount :
      countTradeId (ExecutorService.processTrade cfg d1 st0 t tc).orders t.id
        = 1 := by
    simp only [ExecutorService.processTrade, hnew, hsize,
      InMemoryDatabase.saveExecutionOrder, Bool.false_eq_true, if_false]
    split
    · rw [countTradeId_updateExecutionOrder]
      rw [insertKey_fresh _ hfresh, countTradeId_append, h0]
      simp [countTradeId]
    · rw [countTradeId_executeOrder]
      show countTradeId (insertKey st0.orders st0.nextOrderId _) t.id = 1
      rw [insertKey_fresh _ hfresh, countTradeId_append, h0]
      simp [countTradeId]
  refine ⟨hcount, processTrade_skip _ _ _ _ _ ?_⟩
  exact isTradeProcessed_of_countTradeId_pos _ _ (by rw [hcount]; norm_num)

/-- Witness for C1: a concrete BUY trade processed twice from an empty
store; the second invocation leaves the state of the first unchanged and
exactly one order for the trade id exists. -/
theorem trade_idempotency_witness :
    countTradeId
      (ExecutorService.processTrade ⟨⟨1000, 5000, 1/50, 10⟩, true, true⟩ 0
        ⟨[], [], ⟨1000, []⟩, ⟨[(("m", "o"), 1/2)], [], 1/50, 42⟩, 0⟩
        ⟨"trade-1", "a", "m", "o", .BUY, 100, 1/2⟩
        ⟨"a", 1, true⟩).orders
      (⟨"trade-1", "a", "m", "o", .BUY, 100, 1/2⟩ : Trade).id = 1
    ∧ ExecutorService.processTrade ⟨⟨1000, 5000, 1/50, 10⟩, true, true⟩ 0
        (ExecutorService.processTrade ⟨⟨1000, 5000, 1/50, 10⟩, true, true⟩ 0
          ⟨[], [], ⟨1000, []⟩, ⟨[(("m", "o"), 1/2)], [], 1/50, 42⟩, 0⟩
          ⟨"trade-1", "a", "m", "o", .BUY, 100, 1/2⟩ ⟨"a", 1, true⟩)
        ⟨"trade-1", "a", "m", "o", .BUY, 100, 1/2⟩ ⟨"a", 1, true⟩
      = ExecutorService.processTrade ⟨⟨1000, 5000, 1/50, 10⟩, true, true⟩ 0
          ⟨[], [], ⟨1000, []⟩, ⟨[(("m", "o"), 1/2)], [], 1/50, 42⟩, 0⟩
          ⟨"trade-1", "a", "m", "o", .BUY, 100, 1/2⟩ ⟨"a", 1, true⟩ :=
  trade_idempotency _ 0 0 _ _ _
    (by intro kv hkv; simp at hkv) rfl
    (by norm_num [RiskEngine.calculateSafePositionSize, min_def])

/-- Counterexample to C10: the storage operation updateExecutionOrder
applies any patch unconditionally, so a stored order already in the
terminal status EXECUTED has its status changed by a subsequent
updateExecutionOrder call on its id. -/
theorem terminal_order_mutation_counterexample :
    (lookupKey
      (InMemoryDatabase.updateExecutionOrder
        [(0, ⟨0, "t1", "a", "m", "o", .BUY, 100, 100, 1/2, 1/2,
          .EXECUTED, none⟩)]
        0 ⟨some OrderStatus.FAILED, none, none, none⟩) 0).map
        ExecutionOrder.status
      = some OrderStatus.FAILED
    ∧ some OrderStatus.FAILED ≠ some OrderStatus.EXECUTED := by
  constructor
  · rfl
  · simp

/-- C10 amended: the database operation enforces no immutability, but the
pipeline itself never patches an already-stored order: a stored order in a
terminal status (and in fact any stored order) is unchanged by every
subsequent processTrade invocation, because the pipeline only creates and
patches the order under its own fresh id. -/
theorem terminal_order_pipeline_immutable (cfg : BotCfg) (slipDraw : ℚ)
    (st : PipelineState) (t : Trade) (tc : TrackedTrader) (k : Nat)
    (o : ExecutionOrder)
    (hwf : ∀ kv ∈ st.orders, kv.1 < st.nextOrderId)
    (hk : lookupKey st.orders k = some o)
    (hterm : o.status = OrderStatus.EXECUTED ∨ o.status = OrderStatus.FAILED
      ∨ o.status = OrderStatus.REJECTED) :
    lookupKey (ExecutorService.processTrade cfg slipDraw st t tc).orders k
      = some o := by
  have hkn : st.nextOrderId ≠ k := by
    intro he
    have hlt := hwf (k, o) (lookupKey_mem hk)
    simp only at hlt
    omega
  simp only [ExecutorService.processTrade, InMemoryDatabase.saveExecutionOrder]
  split
  · exact hk
  · split
    · exact hk
    · split
      · rw [lookupKey_updateExecutionOrder_ne _ _ _ _ hkn,
          lookupKey_insertKey_ne _ _ _ _ hkn]
        exact hk
      · rw [lookupKey_executeOrder_ne _ _ _ _ hkn]
        show lookupKey (insertKey st.orders st.nextOrderId _) k = some o
        rw [lookupKey_insertKey_ne _ _ _ _ hkn]
        exact hk

/-- Witness for the amended C10: a stored EXECUTED order under id 5 is
untouched by processing a fresh trade (here one whose size gates to 0). -/
theorem terminal_order_pipeline_immutable_witness :
    lookupKey
      (ExecutorService.processTrade ⟨⟨1000, 5000, 1/50, 10⟩, true, true⟩ 0
        ⟨[(5, ⟨5, "t1", "a", "m", "o", .BUY, 100, 100, 1/2, 1/2,
            .EXECUTED, none⟩)],
          [], ⟨1000, []⟩, ⟨[(("m", "o"), 1/2)], [], 1/50, 42⟩, 6⟩
        ⟨"trade-2", "a", "m", "o", .BUY, 0, 1/2⟩ ⟨"a", 1, true⟩).orders 5
      = some ⟨5, "t1", "a", "m", "o", .BUY, 100, 100, 1/2, 1/2,
          .EXECUTED, none⟩ :=
  terminal_order_pipeline_immutable _ 0 _ _ _ 5 _
    (by
      intro kv hkv
      simp only [List.mem_singleton] at hkv
      rw [hkv]
      norm_num)
    (by simp [lookupKey])
    (Or.inl rfl)

/-- Counterexample to C9: at the spec's scenario (wallet at 100, BUY 1000
at 0.50, cost 500), the affordability pre-check inside validateOrder
already fails, so the order ends REJECTED at validation instead of
reaching settlement and ending FAILED. -/
theorem unaffordable_buy_not_failed_counterexample :
    ((lookupKey
      (ExecutorService.processTrade ⟨⟨1000, 5000, 1/50, 10⟩, true, true⟩ 0
        ⟨[], [], ⟨100, []⟩, ⟨[(("m", "o"), 1/2)], [], 1/50, 42⟩, 0⟩
        ⟨"trade-9", "a", "m", "o", .BUY, 1000, 1/2⟩ ⟨"a", 1, true⟩).orders
      0).map ExecutionOrder.status = some OrderStatus.REJECTED)
    ∧ ¬ ((lookupKey
      (ExecutorService.processTrade ⟨⟨1000, 5000, 1/50, 10⟩, true, true⟩ 0
        ⟨[], [], ⟨100, []⟩, ⟨[(("m", "o"), 1/2)], [], 1/50, 42⟩, 0⟩
        ⟨"trade-9", "a", "m", "o", .BUY, 1000, 1/2⟩ ⟨"a", 1, true⟩).orders
      0).map ExecutionOrder.status = some OrderStatus.FAILED) := by
  constructor <;>
  · norm_num [ExecutorService.processTrade, ExecutorService.executeOrder,
      RiskEngine.calculateSafePositionSize, RiskEngine.validateOrder,
      RiskEngine.checkPositionSizeLimit, RiskEngine.checkTotalExposureLimit,
      RiskEngine.checkSlippage, MockExecutor.canExecute,
      PositionManager.getPositionSize, PositionManager.getTotalExposure,
      PriceSimulator.getPrice, PriceSimulator.setPrice,
      InMemoryDatabase.saveExecutionOrder,
      InMemoryDatabase.updateExecutionOrder,
      InMemoryDatabase.isTradeProcessed, applyPatch, lookupKey, insertKey,
      min_def]
    try decide

/-- C9 amended: processing a BUY whose cost exceeds available cash (wallet
at 100, BUY 1000 at 0.50, cost 500) ends with the order REJECTED at the
validation-stage affordability check, with the insufficient-balance
reason, and the cash balance unchanged at 100; settlement is never
invoked. -/
theorem unaffordable_buy_rejected :
    ((lookupKey
      (ExecutorService.processTrade ⟨⟨1000, 5000, 1/50, 10⟩, true, true⟩ 0
        ⟨[], [], ⟨100, []⟩, ⟨[(("m", "o"), 1/2)], [], 1/50, 42⟩, 0⟩
        ⟨"trade-9", "a", "m", "o", .BUY, 1000, 1/2⟩ ⟨"a", 1, true⟩).orders
      0).map ExecutionOrder.status = some OrderStatus.REJECTED)
    ∧ ((lookupKey
      (ExecutorService.processTrade ⟨⟨1000, 5000, 1/50, 10⟩, true, true⟩ 0
        ⟨[], [], ⟨100, []⟩, ⟨[(("m", "o"), 1/2)], [], 1/50, 42⟩, 0⟩
        ⟨"trade-9", "a", "m", "o", .BUY, 1000, 1/2⟩ ⟨"a", 1, true⟩).orders
      0).map ExecutionOrder.rejectionReason
        = some (some RejectReason.insufficientBalance))
    ∧ (ExecutorService.processTrade ⟨⟨1000, 5000, 1/50, 10⟩, true, true⟩ 0
        ⟨[], [], ⟨100, []⟩, ⟨[(("m", "o"), 1/2)], [], 1/50, 42⟩, 0⟩
        ⟨"trade-9", "a", "m", "o", .BUY, 1000, 1/2⟩
        ⟨"a", 1, true⟩).wallet.cashBalance = 100 := by
  refine ⟨?_, ?_, ?_⟩ <;>
  norm_num [ExecutorService.processTrade, ExecutorService.executeOrder,
    RiskEngine.calculateSafePositionSize, RiskEngine.validateOrder,
    RiskEngine.checkPositionSizeLimit, RiskEngine.checkTotalExposureLimit,
    RiskEngine.checkSlippage, MockExecutor.canExecute,
    PositionManager.getPositionSize, PositionManager.getTotalExposure,
    PriceSimulator.getPrice, PriceSimulator.setPrice,
    InMemoryDatabase.saveExecutionOrder, InMemoryDatabase.updateExecutionOrder,
    InMemoryDatabase.isTradeProcessed, applyPatch, lookupKey, insertKey,
    min_def]

/-- C8 (documents the divergence): at the documented scenario — trader
capital estimate 10000, trade of 2000 shares at 0.50 (1000 USD, 10 percent
of the estimate), bot capital 2000 — the pipeline sizes the order to
trade.size * multiplier = 2000 shares, while the (never called)
calculateCapitalProportionalSize would size it to 400 shares (200 USD, 10
percent of bot capital).  processTrade consults only the multiplier:
TrackedTrader has no capital field and no call site passes one. -/
theorem capital_proportional_not_wired :
    ((lookupKey
      (ExecutorService.processTrade ⟨⟨5000, 50000, 1/50, 10⟩, true, true⟩ 0
        ⟨[], [], ⟨2000, []⟩, ⟨[(("m", "o"), 1/2)], [], 1/50, 42⟩, 0⟩
        ⟨"trade-8", "a", "m", "o", .BUY, 2000, 1/2⟩ ⟨"a", 1, true⟩).orders
      0).map ExecutionOrder.requestedSize = some 2000)
    ∧ RiskEngine.calculateCapitalProportionalSize ⟨5000, 50000, 1/50, 10⟩
        2000 2000 (1/2) 10000 (1/2) = 400
    ∧ (2000 : ℚ) ≠ 400 := by
  refine ⟨?_, ?_, by norm_num⟩
  · norm_num [ExecutorService.processTrade, ExecutorService.executeOrder,
      RiskEngine.calculateSafePositionSize, RiskEngine.validateOrder,
      RiskEngine.checkPositionSizeLimit, RiskEngine.checkTotalExposureLimit,
      RiskEngine.checkSlippage, MockExecutor.canExecute,
      MockExecutor.executeOrder, MockExecutor.simulateExecutionPrice,
      MockWalletEngine.buy, PositionManager.updatePosition,
      PositionManager.getPositionSize, PositionManager.getTotalExposure,
      PriceSimulator.getPrice, PriceSimulator.setPrice,
      InMemoryDatabase.saveExecutionOrder,
      InMemoryDatabase.updateExecutionOrder,
      InMemoryDatabase.isTradeProcessed, applyPatch, lookupKey, insertKey,
      min_def]
  · norm_num [RiskEngine.calculateCapitalProportionalSize, min_def]
